import Mathlib

/-!
Shallow embedding of `core/lib/vm_interface/src/types/outputs/execution_result.rs`
from the zksync-era repository, together with proofs about the event-extraction
layer, metrics derivation, call traces and result projection.

Bytes are modelled as `Nat` (each in `0..256`), byte strings as `List Nat`,
32-byte hashes as lists of 32 bytes, and machine integers as `Nat`.
A Rust function that can panic is embedded as an `Option`-valued function,
with `none` standing for the panic/abort outcome.
-/

/-- 32-byte hash (`H256` from `zksync_types`), modelled as its list of bytes. -/
abbrev H256 : Type := List Nat

/-- `H256::zero()`: the all-zero 32-byte hash. -/
def H256.zero : H256 := List.replicate 32 0

/-- Addresses (`Address` = 20-byte account address), modelled as a number. -/
abbrev Address : Type := Nat

/-- Modelled from the spec: the fixed system address of the outbound L1 messenger
contract (`L1_MESSENGER_ADDRESS` from `zksync_system_constants`, not under `src/`). -/
def L1_MESSENGER_ADDRESS : Address := 0x8008

/-- Modelled from the spec: the fixed system address of the known-codes storage
contract (`KNOWN_CODES_STORAGE_ADDRESS` from `zksync_system_constants`, not under `src/`). -/
def KNOWN_CODES_STORAGE_ADDRESS : Address := 0x8004

/-- Modelled from the spec: the fixed entry-point (bootloader) address
(`BOOTLOADER_ADDRESS` from `zksync_system_constants`, not under `src/`). -/
def BOOTLOADER_ADDRESS : Address := 0x8001

/-- Modelled from the spec: the fixed per-bytecode publication overhead constant
(`PUBLISH_BYTECODE_OVERHEAD` from `zksync_system_constants`, not under `src/`). -/
def PUBLISH_BYTECODE_OVERHEAD : Nat := 100

/-- Event generated by the VM (`VmEvent`). -/
structure VmEvent where
  location : Nat × Nat
  address : Address
  indexed_topics : List H256
  value : List Nat
deriving DecidableEq

/-- Long signature of the contract deployment event (`ContractDeployed`). -/
def DEPLOY_EVENT_SIGNATURE : H256 :=
  [41, 10, 253, 174, 35, 26, 63, 192, 187, 174, 139, 26, 246, 54, 152, 176,
   161, 215, 155, 33, 173, 23, 223, 3, 66, 223, 185, 82, 254, 116, 248, 229]

/-- Long signature of the L1 messenger bytecode publication event
(`BytecodeL1PublicationRequested`). -/
def L1_MESSENGER_BYTECODE_PUBLICATION_EVENT_SIGNATURE : H256 :=
  [72, 13, 60, 159, 114, 123, 94, 92, 18, 3, 212, 198, 31, 177, 133, 211,
   127, 8, 230, 178, 220, 94, 155, 191, 152, 89, 27, 26, 122, 221, 245, 124]

/-- Long signature of the known bytecodes storage bytecode publication event
(`MarkedAsKnown`). -/
def PUBLISHED_BYTECODE_SIGNATURE : H256 :=
  [201, 71, 34, 255, 19, 234, 207, 83, 84, 124, 71, 65, 218, 181, 34, 131,
   83, 160, 89, 56, 255, 205, 213, 212, 162, 213, 51, 174, 14, 97, 130, 135]

/-- Long signature of the L1 messenger publication event (`L1MessageSent`). -/
def L1_MESSAGE_EVENT_SIGNATURE : H256 :=
  [58, 54, 228, 114, 145, 244, 32, 31, 175, 19, 127, 171, 8, 29, 146, 41,
   91, 206, 45, 83, 190, 44, 108, 166, 139, 168, 44, 127, 170, 156, 226, 65]

/-- Big-endian interpretation of a byte list as a number. -/
def beBytesToNat (bs : List Nat) : Nat := bs.foldl (fun acc b => acc * 256 + b) 0

/-- Reads the 32-byte big-endian word of `data` starting at byte offset `off`;
fails when fewer than 32 bytes are available there. -/
def readWord (data : List Nat) (off : Nat) : Option Nat :=
  if off + 32 ≤ data.length then some (beBytesToNat ((data.drop off).take 32)) else none

/-- Modelled from the spec: `ethabi::decode(&[ParamType::Bytes], data)` for a single
dynamic byte array (the `ethabi` crate is not under `src/`). Per the spec, the
encoding is a 32-byte offset word, then at that offset a 32-byte length word
followed by the payload padded to a multiple of 32; decoding reads the offset
word, then the length word it points at, then the payload, failing if any read
runs past the end of the data. -/
def abi_decode_bytes (data : List Nat) : Option (List Nat) := do
  let off ← readWord data 0
  let len ← readWord data off
  if off + 32 + len ≤ data.length then
    pure ((data.drop (off + 32)).take len)
  else
    none

/-- The 32-byte big-endian encoding of a number below `2 ^ 256`. -/
def natToWordBytes (n : Nat) : List Nat :=
  (List.range 32).map (fun i => n / 256 ^ (31 - i) % 256)

/-- Modelled from the spec: the ABI encoding of a single dynamic byte array:
a 32-byte offset word (value 32), a 32-byte length word, then the payload
zero-padded to the next multiple of 32. -/
def abi_encode_bytes (msg : List Nat) : List Nat :=
  natToWordBytes 32 ++ natToWordBytes msg.length ++ msg ++
    List.replicate ((msg.length + 31) / 32 * 32 - msg.length) 0

/-- The filter of `VmEvent::extract_long_l2_to_l1_messages`: events from the L1
messenger contract with exactly 3 indexed topics whose topic 0 is the
`L1MessageSent` signature. -/
def is_l1_message_event (e : VmEvent) : Bool :=
  decide (e.address = L1_MESSENGER_ADDRESS ∧ e.indexed_topics.length = 3 ∧
    e.indexed_topics.getD 0 H256.zero = L1_MESSAGE_EVENT_SIGNATURE)

/-- ABI-decodes the `value` of each event in turn (the `map` + `collect` of
`extract_long_l2_to_l1_messages`); a decode failure anywhere is the panic of the
`expect` call, modelled as `none`. -/
def decode_l1_message_values : List VmEvent → Option (List (List Nat))
  | [] => some []
  | e :: rest =>
    (abi_decode_bytes e.value).bind fun m =>
      (decode_l1_message_values rest).map fun ms => m :: ms

/-- `VmEvent::extract_long_l2_to_l1_messages`: filter events from the L1 messenger
contract matching the `L1MessageSent` signature, then ABI-decode each `value` as a
single dynamic byte array, panicking (= `none`) on a decode failure. -/
def extract_long_l2_to_l1_messages (events : List VmEvent) : Option (List (List Nat)) :=
  decode_l1_message_values (events.filter is_l1_message_event)

/-- The filter of `VmEvent::extract_published_bytecodes`: events from the known
codes storage with exactly 3 indexed topics whose topic 0 is the `MarkedAsKnown`
signature and whose topic 2 is non-zero. -/
def is_published_bytecode_event (e : VmEvent) : Bool :=
  decide (e.address = KNOWN_CODES_STORAGE_ADDRESS ∧ e.indexed_topics.length = 3 ∧
    e.indexed_topics.getD 0 H256.zero = PUBLISHED_BYTECODE_SIGNATURE ∧
    e.indexed_topics.getD 2 H256.zero ≠ H256.zero)

/-- `VmEvent::extract_published_bytecodes`: topic 1 of every event from the known
codes storage matching the `MarkedAsKnown` signature with a non-zero topic 2. -/
def extract_published_bytecodes (events : List VmEvent) : List H256 :=
  (events.filter is_published_bytecode_event).map
    (fun e => e.indexed_topics.getD 1 H256.zero)

/-- The filter of `VmEvent::extract_bytecodes_marked_as_known`: events from the
known codes storage with exactly 3 indexed topics whose topic 0 is the
`MarkedAsKnown` signature (no condition on topic 2). -/
def is_marked_as_known_event (e : VmEvent) : Bool :=
  decide (e.address = KNOWN_CODES_STORAGE_ADDRESS ∧ e.indexed_topics.length = 3 ∧
    e.indexed_topics.getD 0 H256.zero = PUBLISHED_BYTECODE_SIGNATURE)

/-- `VmEvent::extract_bytecodes_marked_as_known`: topic 1 of every event from the
known codes storage matching the `MarkedAsKnown` signature (the lazy iterator of
the source, materialised as a list). -/
def extract_bytecodes_marked_as_known (events : List VmEvent) : List H256 :=
  (events.filter is_marked_as_known_event).map
    (fun e => e.indexed_topics.getD 1 H256.zero)

/-- `VmEvent::contains_contract_deployment`: true iff some event's first indexed
topic equals the `ContractDeployed` signature. -/
def contains_contract_deployment (events : List VmEvent) : Bool :=
  events.any fun e =>
    match e.indexed_topics.head? with
    | some topic => decide (topic = DEPLOY_EVENT_SIGNATURE)
    | none => false

/-- Modelled from the spec: a structured revert reason (`VmRevertReason`, not under
`src/`); its internals are opaque to this module, so it is modelled as raw bytes. -/
abbrev VmRevertReason : Type := List Nat

/-- Modelled from the spec: a structured halt reason (`Halt`, not under `src/`);
opaque to this module. -/
abbrev HaltReason : Type := Nat

/-- `ExecutionResult`: tagged outcome of a VM execution. -/
inductive ExecutionResult where
  | Success (output : List Nat)
  | Revert (output : VmRevertReason)
  | Halt (reason : HaltReason)
deriving DecidableEq

/-- `ExecutionResult::is_failed`: `matches!(self, Revert | Halt)`. -/
def ExecutionResult.is_failed : ExecutionResult → Bool
  | .Success _ => false
  | .Revert _ => true
  | .Halt _ => true

/-- Modelled from the spec: one storage log with its previous value
(`StorageLogWithPreviousValue`, not under `src/`); opaque here, only counted. -/
abbrev StorageLogWithPreviousValue : Type := Nat

/-- Modelled from the spec: a user outbound L2-to-L1 log (`UserL2ToL1Log`, not
under `src/`); opaque here, only counted. -/
abbrev UserL2ToL1Log : Type := Nat

/-- Modelled from the spec: a system outbound L2-to-L1 log (`SystemL2ToL1Log`, not
under `src/`); opaque here, only counted. -/
abbrev SystemL2ToL1Log : Type := Nat

/-- `VmExecutionLogs`: logs created within transaction execution. -/
structure VmExecutionLogs where
  storage_logs : List StorageLogWithPreviousValue
  events : List VmEvent
  user_l2_to_l1_logs : List UserL2ToL1Log
  system_l2_to_l1_logs : List SystemL2ToL1Log
  total_log_queries_count : Nat

/-- `VmExecutionLogs::total_l2_to_l1_logs_count`. -/
def VmExecutionLogs.total_l2_to_l1_logs_count (l : VmExecutionLogs) : Nat :=
  l.user_l2_to_l1_logs.length + l.system_l2_to_l1_logs.length

/-- `Refunds`: refunds produced for the user. -/
structure Refunds where
  gas_refunded : Nat
  operator_suggested_refund : Nat

/-- Modelled from the spec: the opaque execution statistics bundle
(`VmExecutionStatistics`, not under `src/`): gas used, cycles, contracts
touched, pubdata published, computational gas, circuit statistic, log queries. -/
structure VmExecutionStatistics where
  gas_used : Nat
  contracts_used : Nat
  total_log_queries : Nat
  cycles_used : Nat
  computational_gas_used : Nat
  pubdata_published : Nat
  circuit_statistic : Nat

/-- Modelled from the spec: the derived metrics record (`VmExecutionMetrics`, not
under `src/`), with exactly the fields assigned by `get_execution_metrics`. -/
structure VmExecutionMetrics where
  gas_used : Nat
  published_bytecode_bytes : Nat
  l2_l1_long_messages : Nat
  l2_to_l1_logs : Nat
  user_l2_to_l1_logs : Nat
  contracts_used : Nat
  vm_events : Nat
  storage_logs : Nat
  total_log_queries : Nat
  cycles_used : Nat
  computational_gas_used : Nat
  pubdata_published : Nat
  circuit_statistic : Nat
  contract_deployment_count : Nat
deriving DecidableEq

/-- `VmExecutionResultAndLogs`: result and logs of the VM execution
(`dynamic_factory_deps` modelled as an association list). -/
structure VmExecutionResultAndLogs where
  result : ExecutionResult
  logs : VmExecutionLogs
  statistics : VmExecutionStatistics
  refunds : Refunds
  dynamic_factory_deps : List (H256 × List Nat)

/-- Modelled from the spec: `BytecodeHash::try_from(h).len_in_bytes()` from
`zksync_types::bytecode` (not under `src/`): fallibly decodes a bytecode-length
marker from a 32-byte hash; byte 0 is a version marker (1 = native bytecode with
bytes 2..4 the big-endian length in 32-byte words, 2 = foreign-format bytecode
with bytes 2..4 the big-endian length in bytes); any other marker is a fatal
invariant violation, modelled as `none`. -/
def bytecode_len_in_bytes (h : H256) : Option Nat :=
  match h.getD 0 0 with
  | 1 => some ((h.getD 2 0 * 256 + h.getD 3 0) * 32)
  | 2 => some (h.getD 2 0 * 256 + h.getD 3 0)
  | _ => none

/-- Fallibly maps `bytecode_len_in_bytes` over extracted hashes (the `map` with
`expect` inside `get_execution_metrics`); a parse failure is a panic (`none`). -/
def published_bytecode_lengths : List H256 → Option (List Nat)
  | [] => some []
  | h :: rest =>
    (bytecode_len_in_bytes h).bind fun n =>
      (published_bytecode_lengths rest).map fun ns => n :: ns

/-- `VmExecutionResultAndLogs::get_execution_metrics`; `none` is the panic of the
two `expect` calls (L1-message ABI decoding, bytecode-hash parsing). -/
def VmExecutionResultAndLogs.get_execution_metrics
    (r : VmExecutionResultAndLogs) : Option VmExecutionMetrics :=
  match extract_long_l2_to_l1_messages r.logs.events with
  | none => none
  | some msgs =>
    match published_bytecode_lengths (extract_published_bytecodes r.logs.events) with
    | none => none
    | some lens =>
      some {
        gas_used := r.statistics.gas_used
        published_bytecode_bytes :=
          (lens.map (fun n => n + PUBLISH_BYTECODE_OVERHEAD)).sum
        l2_l1_long_messages :=
          (msgs.map (fun msg => (msg.length + 31) / 32 * 32 + 64)).sum
        l2_to_l1_logs := r.logs.total_l2_to_l1_logs_count
        user_l2_to_l1_logs := r.logs.user_l2_to_l1_logs.length
        contracts_used := r.statistics.contracts_used
        vm_events := r.logs.events.length
        storage_logs := r.logs.storage_logs.length
        total_log_queries := r.statistics.total_log_queries
        cycles_used := r.statistics.cycles_used
        computational_gas_used := r.statistics.computational_gas_used
        pubdata_published := r.statistics.pubdata_published
        circuit_statistic := r.statistics.circuit_statistic
        contract_deployment_count := (extract_bytecodes_marked_as_known r.logs.events).length
      }

/-- `TxExecutionStatus`. -/
inductive TxExecutionStatus where
  | Success
  | Failure
deriving DecidableEq

/-- `TxExecutionStatus::from_has_failed`. -/
def TxExecutionStatus.from_has_failed (has_failed : Bool) : TxExecutionStatus :=
  if has_failed then .Failure else .Success

/-- Modelled from the spec: `FarCallOpcode` from `zksync_types::zk_evm_types`
(not under `src/`), the far-call subkind with discriminants Normal = 0,
Delegate = 1, Mimic = 2. -/
inductive FarCallOpcode where
  | Normal
  | Delegate
  | Mimic
deriving DecidableEq

/-- `CallType`: variant over far calls (with subkind), create and near calls. -/
inductive CallType where
  | Call (op : FarCallOpcode)
  | Create
  | NearCall
deriving DecidableEq

/-- `far_call_type_to_u8`: `*far_call_type as u8` under the discriminants of
`FarCallOpcode`. -/
def far_call_type_to_u8 : FarCallOpcode → Nat
  | .Normal => 0
  | .Delegate => 1
  | .Mimic => 2

/-- `far_call_type_from_u8`: decodes a byte into a `FarCallOpcode`, with a
descriptive recoverable error for any byte outside the mapping. -/
def far_call_type_from_u8 (b : Nat) : Except String FarCallOpcode :=
  match b with
  | 0 => .ok .Normal
  | 1 => .ok .Delegate
  | 2 => .ok .Mimic
  | _ => .error "Invalid FarCallOpcode"

/-- `Call`: a node of the VM call trace (the recursive struct of the source, as a
nested inductive; field order follows the source). -/
inductive Call where
  | mk (type : CallType) (from_addr : Address) (to_addr : Address)
       (parent_gas : Nat) (gas : Nat) (gas_used : Nat) (value : Nat)
       (input : List Nat) (output : List Nat)
       (error : Option String) (revert_reason : Option String)
       (calls : List Call)

/-- The `type` field of a `Call`. -/
def Call.type : Call → CallType
  | .mk t _ _ _ _ _ _ _ _ _ _ _ => t

/-- The `from` field of a `Call` (caller address). -/
def Call.from_addr : Call → Address
  | .mk _ f _ _ _ _ _ _ _ _ _ _ => f

/-- The `to` field of a `Call` (callee address). -/
def Call.to_addr : Call → Address
  | .mk _ _ ta _ _ _ _ _ _ _ _ _ => ta

/-- The `parent_gas` field of a `Call`. -/
def Call.parent_gas : Call → Nat
  | .mk _ _ _ pg _ _ _ _ _ _ _ _ => pg

/-- The `gas` field of a `Call`. -/
def Call.gas : Call → Nat
  | .mk _ _ _ _ g _ _ _ _ _ _ _ => g

/-- The `gas_used` field of a `Call`. -/
def Call.gas_used : Call → Nat
  | .mk _ _ _ _ _ gu _ _ _ _ _ _ => gu

/-- The `value` field of a `Call`. -/
def Call.value : Call → Nat
  | .mk _ _ _ _ _ _ v _ _ _ _ _ => v

/-- The `input` field of a `Call`. -/
def Call.input : Call → List Nat
  | .mk _ _ _ _ _ _ _ i _ _ _ _ => i

/-- The `output` field of a `Call`. -/
def Call.output : Call → List Nat
  | .mk _ _ _ _ _ _ _ _ o _ _ _ => o

/-- The `error` field of a `Call`. -/
def Call.error : Call → Option String
  | .mk _ _ _ _ _ _ _ _ _ e _ _ => e

/-- The `revert_reason` field of a `Call`. -/
def Call.revert_reason : Call → Option String
  | .mk _ _ _ _ _ _ _ _ _ _ rr _ => rr

/-- The `calls` field of a `Call` (subcalls). -/
def Call.calls : Call → List Call
  | .mk _ _ _ _ _ _ _ _ _ _ _ cs => cs

mutual

/-- `impl PartialEq for Call`: field-by-field comparison that skips `parent_gas`,
`gas` and `gas_used`, recursing into `calls`. -/
def callEq : Call → Call → Bool
  | .mk t f ta _ _ _ v i o e rr cs, .mk t' f' ta' _ _ _ v' i' o' e' rr' cs' =>
    decide (rr = rr') && decide (i = i') && decide (f = f') && decide (ta = ta') &&
    decide (t = t') && decide (v = v') && decide (e = e') && decide (o = o') &&
    callListEq cs cs'

/-- Element-wise `callEq` on subcall lists (the derived `Vec<Call>` equality). -/
def callListEq : List Call → List Call → Bool
  | [], [] => true
  | a :: as_, b :: bs => callEq a b && callListEq as_ bs
  | _, _ => false

end

/-- `Call::new_high_level`: the synthetic root node wrapping a flat list of leaf
traces. -/
def Call.new_high_level (gas gas_used value : Nat) (input output : List Nat)
    (revert_reason : Option String) (calls : List Call) : Call :=
  .mk (.Call .Normal) 0 BOOTLOADER_ADDRESS gas gas gas_used value input output
    none revert_reason calls

/-- Modelled from the spec: the executable payload of a transaction
(`transaction.execute` with its `value` and `calldata` fields; `Transaction` is
from `zksync_types`, not under `src/`). -/
structure Execute where
  value : Nat
  calldata : List Nat

/-- Modelled from the spec: the transaction record (`Transaction` from
`zksync_types`, not under `src/`), reduced to the fields `call_trace` reads:
`gas_limit()` (as a u64 value) and `execute`. -/
structure Transaction where
  gas_limit : Nat
  execute : Execute

/-- `TransactionExecutionResult`: high-level transaction execution result. -/
structure TransactionExecutionResult where
  transaction : Transaction
  hash : H256
  execution_info : VmExecutionMetrics
  execution_status : TxExecutionStatus
  refunded_gas : Nat
  call_traces : List Call
  revert_reason : Option String

/-- Rust `u64` subtraction in a checked build: panics (`none`) on underflow. -/
def checked_sub_u64 (a b : Nat) : Option Nat :=
  if b ≤ a then some (a - b) else none

/-- `TransactionExecutionResult::call_trace`; the outer `Option` is the panic of
the unguarded `gas_limit - refunded_gas` subtraction, the inner `Option` is the
source's return value. -/
def TransactionExecutionResult.call_trace
    (r : TransactionExecutionResult) : Option (Option Call) :=
  if r.call_traces.isEmpty then
    some none
  else
    match checked_sub_u64 r.transaction.gas_limit r.refunded_gas with
    | none => none
    | some gu =>
      some (some (Call.new_high_level r.transaction.gas_limit gu
        r.transaction.execute.value r.transaction.execute.calldata []
        r.revert_reason r.call_traces))

/-- Follows the spec's words for `extract_published_bytecode_hashes`: walk the
events in order; an event from the known-codes-storage address with exactly 3
topics, topic 0 the marked-as-known signature and a non-zero topic 2 contributes
its topic 1; every other event contributes nothing. -/
def spec_published_bytecode_hashes : List VmEvent → List H256
  | [] => []
  | e :: rest =>
    if e.address = KNOWN_CODES_STORAGE_ADDRESS ∧ e.indexed_topics.length = 3 ∧
        e.indexed_topics.getD 0 H256.zero = PUBLISHED_BYTECODE_SIGNATURE ∧
        e.indexed_topics.getD 2 H256.zero ≠ H256.zero then
      e.indexed_topics.getD 1 H256.zero :: spec_published_bytecode_hashes rest
    else
      spec_published_bytecode_hashes rest

/-- Follows the spec's words for `Call` equality: two call trees are related iff
`revert_reason`, `input`, `from`, `to`, `type`, `value`, `error` and `output`
match and the subcall lists match element-wise (same length, related pairwise);
`parent_gas`, `gas` and `gas_used` are not constrained. -/
inductive CallEqSpec : Call → Call → Prop where
  | intro (t t' : CallType) (f f' ta ta' : Address) (pg pg' g g' gu gu' v v' : Nat)
      (i i' o o' : List Nat) (e e' rr rr' : Option String) (cs cs' : List Call) :
      rr = rr' → i = i' → f = f' → ta = ta' → t = t' → v = v' → e = e' → o = o' →
      cs.length = cs'.length →
      (∀ p ∈ cs.zip cs', CallEqSpec p.1 p.2) →
      CallEqSpec (.mk t f ta pg g gu v i o e rr cs) (.mk t' f' ta' pg' g' gu' v' i' o' e' rr' cs')

/-- A leaf call-trace node used by concrete instances below. -/
def call_leaf : Call := .mk .Create 0 0 0 0 0 0 [] [] none none []

/-- An event from the L1 messenger carrying the ABI encoding of the one-byte
message `[7]`. -/
def ev_l1msg : VmEvent :=
  { location := (0, 0), address := L1_MESSENGER_ADDRESS,
    indexed_topics := [L1_MESSAGE_EVENT_SIGNATURE, H256.zero, H256.zero],
    value := abi_encode_bytes [7] }

/-- An event with the right topics but a foreign address; no extraction admits it. -/
def ev_other : VmEvent :=
  { location := (0, 0), address := 1234,
    indexed_topics := [L1_MESSAGE_EVENT_SIGNATURE, H256.zero, H256.zero],
    value := [] }

/-- A marked-as-known event whose topic 2 is the zero hash. -/
def ev_marked_zero : VmEvent :=
  { location := (0, 0), address := KNOWN_CODES_STORAGE_ADDRESS,
    indexed_topics := [PUBLISHED_BYTECODE_SIGNATURE, DEPLOY_EVENT_SIGNATURE, H256.zero],
    value := [] }

/-- The all-zero statistics bundle. -/
def stats_zero : VmExecutionStatistics := ⟨0, 0, 0, 0, 0, 0, 0⟩

/-- A result-and-logs record holding exactly the given events. -/
def vmres_of (events : List VmEvent) : VmExecutionResultAndLogs :=
  { result := .Success [], logs := ⟨[], events, [], [], 0⟩,
    statistics := stats_zero, refunds := ⟨0, 0⟩, dynamic_factory_deps := [] }

/-- The metrics record produced for the events `[ev_l1msg, ev_other]`. -/
def metrics_c2 : VmExecutionMetrics :=
  { gas_used := 0, published_bytecode_bytes := 0, l2_l1_long_messages := 96,
    l2_to_l1_logs := 0, user_l2_to_l1_logs := 0, contracts_used := 0,
    vm_events := 2, storage_logs := 0, total_log_queries := 0, cycles_used := 0,
    computational_gas_used := 0, pubdata_published := 0, circuit_statistic := 0,
    contract_deployment_count := 0 }

/-- The metrics record produced for the events `[ev_marked_zero]`. -/
def metrics_c3 : VmExecutionMetrics :=
  { gas_used := 0, published_bytecode_bytes := 0, l2_l1_long_messages := 0,
    l2_to_l1_logs := 0, user_l2_to_l1_logs := 0, contracts_used := 0,
    vm_events := 1, storage_logs := 0, total_log_queries := 0, cycles_used := 0,
    computational_gas_used := 0, pubdata_published := 0, circuit_statistic := 0,
    contract_deployment_count := 1 }

/-- The all-zero metrics record. -/
def metrics_zero : VmExecutionMetrics :=
  { gas_used := 0, published_bytecode_bytes := 0, l2_l1_long_messages := 0,
    l2_to_l1_logs := 0, user_l2_to_l1_logs := 0, contracts_used := 0,
    vm_events := 0, storage_logs := 0, total_log_queries := 0, cycles_used := 0,
    computational_gas_used := 0, pubdata_published := 0, circuit_statistic := 0,
    contract_deployment_count := 0 }

/-- A transaction result whose refund exceeds its gas limit (with a non-empty
trace list). -/
def ter_bad : TransactionExecutionResult :=
  { transaction := { gas_limit := 3, execute := { value := 0, calldata := [] } },
    hash := H256.zero, execution_info := metrics_zero,
    execution_status := .Success, refunded_gas := 5,
    call_traces := [call_leaf], revert_reason := none }

/-- A transaction result with a refund within its gas limit and a non-empty
trace list. -/
def ter_ok : TransactionExecutionResult :=
  { transaction := { gas_limit := 10, execute := { value := 0, calldata := [] } },
    hash := H256.zero, execution_info := metrics_zero,
    execution_status := .Success, refunded_gas := 4,
    call_traces := [call_leaf], revert_reason := none }

/-- Claim C9: `is_failed` is true iff the variant is `Revert` or `Halt`, and false
for every `Success`, including variants carrying empty payloads. -/
theorem is_failed_iff_revert_or_halt (r : ExecutionResult) :
    r.is_failed = true ↔ (∃ o, r = .Revert o) ∨ (∃ h, r = .Halt h) := by
  cases r <;> simp [ExecutionResult.is_failed]

/-- Claim C8: `contains_contract_deployment` is true iff some event's first
indexed topic exists and equals the deployment signature; no address or arity
constraint, and an event with no topics never matches. -/
theorem contains_contract_deployment_iff (events : List VmEvent) :
    contains_contract_deployment events = true ↔
      ∃ e ∈ events, e.indexed_topics.head? = some DEPLOY_EVENT_SIGNATURE := by
  unfold contains_contract_deployment
  rw [List.any_eq_true]
  refine exists_congr fun e => and_congr_right fun _ => ?_
  cases h : e.indexed_topics.head? <;> simp [h]

/-- Claim C7: the far-call subkind wire encoding maps Normal, Delegate, Mimic to
bytes 0, 1, 2; decoding inverts the encoding, and decoding any other byte yields
the descriptive recoverable error string rather than a panic. -/
theorem far_call_type_round_trip :
    (∀ op, far_call_type_from_u8 (far_call_type_to_u8 op) = .ok op) ∧
    far_call_type_from_u8 3 = .error "Invalid FarCallOpcode" ∧
    (∀ b, b ≠ 0 → b ≠ 1 → b ≠ 2 →
      far_call_type_from_u8 b = .error "Invalid FarCallOpcode") := by
  refine ⟨fun op => by cases op <;> rfl, rfl, fun b h0 h1 h2 => ?_⟩
  match b with
  | 0 => exact absurd rfl h0
  | 1 => exact absurd rfl h1
  | 2 => exact absurd rfl h2
  | n + 3 => rfl

/-- Witness for C7 at concrete inputs: `Call(Delegate)` round-trips and byte 5
decodes to the recoverable error. -/
theorem far_call_type_round_trip_witness :
    far_call_type_from_u8 (far_call_type_to_u8 .Delegate) = .ok .Delegate ∧
    far_call_type_from_u8 5 = .error "Invalid FarCallOpcode" :=
  ⟨far_call_type_round_trip.1 .Delegate,
   far_call_type_round_trip.2.2 5 (by decide) (by decide) (by decide)⟩

/-- Claim C4: `extract_published_bytecodes` returns, in event order with
duplicates preserved, topic 1 of exactly the events from the known-codes-storage
address with 3 topics, marked-as-known topic 0 and non-zero topic 2 (the
spec-side recursion `spec_published_bytecode_hashes`). -/
theorem extract_published_bytecodes_eq_spec (events : List VmEvent) :
    extract_published_bytecodes events = spec_published_bytecode_hashes events := by
  induction events with
  | nil => rfl
  | cons e rest ih =>
    cases hb : is_published_bytecode_event e with
    | false =>
      have hprop : ¬ (e.address = KNOWN_CODES_STORAGE_ADDRESS ∧
          e.indexed_topics.length = 3 ∧
          e.indexed_topics.getD 0 H256.zero = PUBLISHED_BYTECODE_SIGNATURE ∧
          e.indexed_topics.getD 2 H256.zero ≠ H256.zero) := by
        simpa [is_published_bytecode_event] using hb
      rw [spec_published_bytecode_hashes, if_neg hprop]
      simp only [extract_published_bytecodes, List.filter_cons, hb] at ih ⊢
      simpa using ih
    | true =>
      have hprop : e.address = KNOWN_CODES_STORAGE_ADDRESS ∧
          e.indexed_topics.length = 3 ∧
          e.indexed_topics.getD 0 H256.zero = PUBLISHED_BYTECODE_SIGNATURE ∧
          e.indexed_topics.getD 2 H256.zero ≠ H256.zero := by
        simpa [is_published_bytecode_event] using hb
      rw [spec_published_bytecode_hashes, if_pos hprop]
      simp only [extract_published_bytecodes, List.filter_cons, hb] at ih ⊢
      simpa using congrArg (List.cons (e.indexed_topics.getD 1 H256.zero)) ih

/-- When every value decodes, decoding all events yields exactly the decoded
values in order. -/
theorem decode_l1_message_values_eq_some (l : List VmEvent)
    (h : ∀ e ∈ l, (abi_decode_bytes e.value).isSome) :
    decode_l1_message_values l =
      some (l.filterMap fun e => abi_decode_bytes e.value) := by
  induction l with
  | nil => rfl
  | cons e rest ih =>
    obtain ⟨m, hm⟩ := Option.isSome_iff_exists.mp (h e (List.mem_cons_self e rest))
    rw [decode_l1_message_values, hm,
      ih fun x hx => h x (List.mem_cons_of_mem e hx)]
    simp [List.filterMap_cons, hm]

/-- When some value fails to decode, decoding all events fails. -/
theorem decode_l1_message_values_eq_none (l : List VmEvent)
    (h : ∃ e ∈ l, abi_decode_bytes e.value = none) :
    decode_l1_message_values l = none := by
  induction l with
  | nil => simp at h
  | cons e rest ih =>
    obtain ⟨x, hx, hnone⟩ := h
    rcases List.mem_cons.mp hx with rfl | hx2
    · rw [decode_l1_message_values, hnone]; rfl
    · rw [decode_l1_message_values, ih ⟨x, hx2, hnone⟩]
      cases abi_decode_bytes e.value <;> rfl

/-- Claim C1: `extract_long_l2_to_l1_messages` returns exactly the decoded
payloads, in event order, of the events from the L1 messenger with 3 topics and
the L1-message-sent topic 0 (other events contribute nothing); and if the ABI
decoding of some matching event's value fails, the function panics (`none`)
instead of returning a recoverable value. -/
theorem extract_long_l2_to_l1_messages_spec (events : List VmEvent) :
    ((∀ e ∈ events, is_l1_message_event e = true → (abi_decode_bytes e.value).isSome) →
      extract_long_l2_to_l1_messages events =
        some ((events.filter is_l1_message_event).filterMap
          fun e => abi_decode_bytes e.value)) ∧
    ((∃ e ∈ events, is_l1_message_event e = true ∧ abi_decode_bytes e.value = none) →
      extract_long_l2_to_l1_messages events = none) := by
  constructor
  · intro h
    exact decode_l1_message_values_eq_some _ fun e he =>
      h e (List.mem_of_mem_filter he) (List.mem_filter.mp he).2
  · rintro ⟨e, he, hp, hnone⟩
    exact decode_l1_message_values_eq_none _
      ⟨e, List.mem_filter.mpr ⟨he, hp⟩, hnone⟩

/-- Witness for C1 at concrete inputs: with one matching decodable event and one
event at a foreign address, extraction returns exactly the decoded message. -/
theorem extract_long_l2_to_l1_messages_spec_witness :
    extract_long_l2_to_l1_messages [ev_l1msg, ev_other] = some [[7]] :=
  ((extract_long_l2_to_l1_messages_spec [ev_l1msg, ev_other]).1 (by decide)).trans
    (by decide)

/-- Claim C2: when `get_execution_metrics` returns (no panic), its
`l2_l1_long_messages` field is the sum, over the extracted long messages, of the
message length rounded up to the next multiple of 32 plus 64. -/
theorem get_execution_metrics_long_messages (r : VmExecutionResultAndLogs)
    (m : VmExecutionMetrics) (h : r.get_execution_metrics = some m) :
    ∃ msgs, extract_long_l2_to_l1_messages r.logs.events = some msgs ∧
      m.l2_l1_long_messages =
        (msgs.map fun msg => (msg.length + 31) / 32 * 32 + 64).sum := by
  unfold VmExecutionResultAndLogs.get_execution_metrics at h
  cases hE : extract_long_l2_to_l1_messages r.logs.events with
  | none => rw [hE] at h; exact absurd h (by simp)
  | some msgs =>
    rw [hE] at h
    cases hP : published_bytecode_lengths (extract_published_bytecodes r.logs.events) with
    | none => rw [hP] at h; exact absurd h (by simp)
    | some lens =>
      rw [hP] at h
      refine ⟨msgs, rfl, ?_⟩
      cases h
      rfl

/-- Witness for C2 at concrete inputs: a single extracted message of length 1
yields a metric of 96 = 32 + 64. -/
theorem get_execution_metrics_long_messages_witness :
    ∃ msgs,
      extract_long_l2_to_l1_messages (vmres_of [ev_l1msg, ev_other]).logs.events =
        some msgs ∧
      metrics_c2.l2_l1_long_messages =
        (msgs.map fun msg => (msg.length + 31) / 32 * 32 + 64).sum :=
  get_execution_metrics_long_messages (vmres_of [ev_l1msg, ev_other]) metrics_c2
    (by decide)

/-- The published-bytecode filter is stricter than the marked-as-known filter. -/
theorem published_filter_imp_marked (e : VmEvent)
    (h : is_published_bytecode_event e = true) :
    is_marked_as_known_event e = true := by
  simp only [is_published_bytecode_event, decide_eq_true_eq] at h
  simp only [is_marked_as_known_event, decide_eq_true_eq]
  exact ⟨h.1, h.2.1, h.2.2.1⟩

/-- Claim C3: when `get_execution_metrics` returns, `contract_deployment_count`
counts exactly the marked-as-known events (regardless of topic 2), and is never
smaller than the number of published bytecode hashes. -/
theorem get_execution_metrics_deployment_count (r : VmExecutionResultAndLogs)
    (m : VmExecutionMetrics) (h : r.get_execution_metrics = some m) :
    m.contract_deployment_count =
      (r.logs.events.filter is_marked_as_known_event).length ∧
    (extract_published_bytecodes r.logs.events).length ≤
      m.contract_deployment_count := by
  unfold VmExecutionResultAndLogs.get_execution_metrics at h
  cases hE : extract_long_l2_to_l1_messages r.logs.events with
  | none => rw [hE] at h; exact absurd h (by simp)
  | some msgs =>
    rw [hE] at h
    cases hP : published_bytecode_lengths (extract_published_bytecodes r.logs.events) with
    | none => rw [hP] at h; exact absurd h (by simp)
    | some lens =>
      rw [hP] at h
      cases h
      refine ⟨by simp [extract_bytecodes_marked_as_known], ?_⟩
      show (extract_published_bytecodes r.logs.events).length ≤
        (extract_bytecodes_marked_as_known r.logs.events).length
      simp only [extract_published_bytecodes, extract_bytecodes_marked_as_known,
        List.length_map]
      exact (List.monotone_filter_right _ published_filter_imp_marked).length_le

/-- Witness for C3 at concrete inputs: one marked-as-known event with a zero
topic 2 is counted while publishing nothing. -/
theorem get_execution_metrics_deployment_count_witness :
    metrics_c3.contract_deployment_count =
      ((vmres_of [ev_marked_zero]).logs.events.filter is_marked_as_known_event).length ∧
    (extract_published_bytecodes (vmres_of [ev_marked_zero]).logs.events).length ≤
      metrics_c3.contract_deployment_count :=
  get_execution_metrics_deployment_count (vmres_of [ev_marked_zero]) metrics_c3
    (by decide)

/-- Counterexample for C5 as stated: at a concrete result with a non-empty trace
list but `refunded_gas > gas_limit`, `call_trace` neither returns `None` nor any
root `Call` — the unguarded subtraction panics. -/
theorem call_trace_underflow_counterexample :
    ter_bad.call_traces ≠ [] ∧ ter_bad.call_trace ≠ some none ∧
    ∀ c, ter_bad.call_trace ≠ some (some c) := by
  have h : ter_bad.call_trace = none := rfl
  refine ⟨List.cons_ne_nil _ _, ?_, fun c => ?_⟩ <;> rw [h] <;> simp

/-- Claim C5 (amended): under the precondition `refunded_gas ≤ gas_limit`,
`call_trace` returns `None` iff `call_traces` is empty, and otherwise returns
the root `Call` of type `Call(Normal)`, from the zero address to the bootloader,
with `gas` and `parent_gas` the gas limit, `gas_used = gas_limit - refunded_gas`,
the transaction's value and calldata, empty output, no error, the stored revert
reason and the stored subtraces. -/
theorem call_trace_characterisation (r : TransactionExecutionResult)
    (h : r.refunded_gas ≤ r.transaction.gas_limit) :
    (r.call_trace = some none ↔ r.call_traces = []) ∧
    (r.call_traces ≠ [] →
      r.call_trace = some (some (Call.mk (.Call .Normal) 0 BOOTLOADER_ADDRESS
        r.transaction.gas_limit r.transaction.gas_limit
        (r.transaction.gas_limit - r.refunded_gas)
        r.transaction.execute.value r.transaction.execute.calldata []
        none r.revert_reason r.call_traces))) := by
  unfold TransactionExecutionResult.call_trace checked_sub_u64
  by_cases he : r.call_traces = []
  · simp [he]
  · have hne : r.call_traces.isEmpty = false := by
      simpa [List.isEmpty_iff] using he
    simp [hne, he, if_pos h, Call.new_high_level]

/-- Witness for the amended C5 at a concrete input. -/
theorem call_trace_characterisation_witness :
    ter_ok.call_trace = some (some (Call.mk (.Call .Normal) 0 BOOTLOADER_ADDRESS
      10 10 6 0 [] [] none none [call_leaf])) :=
  (call_trace_characterisation ter_ok (by decide)).2 (List.cons_ne_nil _ _)

/-- Claim C10: the subtraction `gas_limit - refunded_gas` inside `call_trace` is
unguarded: with a non-empty trace list and `refunded_gas > gas_limit` it
underflows (panics, `none`), while under the precondition
`refunded_gas ≤ gas_limit` the function is total. -/
theorem call_trace_unguarded_subtraction (r : TransactionExecutionResult) :
    (r.call_traces ≠ [] → r.transaction.gas_limit < r.refunded_gas →
      r.call_trace = none) ∧
    (r.refunded_gas ≤ r.transaction.gas_limit → r.call_trace ≠ none) := by
  unfold TransactionExecutionResult.call_trace checked_sub_u64
  by_cases he : r.call_traces = []
  · simp [he]
  · have hne : r.call_traces.isEmpty = false := by
      simpa [List.isEmpty_iff] using he
    constructor
    · intro _ hlt
      simp [hne, if_neg (Nat.not_le_of_lt hlt)]
    · intro hle
      simp [hne, if_pos hle]

/-- Witness for C10 at concrete inputs: an over-refunded result panics, a
well-formed one does not. -/
theorem call_trace_unguarded_subtraction_witness :
    ter_bad.call_trace = none ∧ ter_ok.call_trace ≠ none :=
  ⟨(call_trace_unguarded_subtraction ter_bad).1 (List.cons_ne_nil _ _) (by decide),
   (call_trace_unguarded_subtraction ter_ok).2 (by decide)⟩

/-- Strong induction over the nested `Call` tree. -/
theorem Call.inductionOn (P : Call → Prop)
    (h : ∀ t f ta pg g gu v i o e rr cs, (∀ c ∈ cs, P c) →
      P (.mk t f ta pg g gu v i o e rr cs)) : ∀ c, P c
  | .mk t f ta pg g gu v i o e rr cs =>
    h t f ta pg g gu v i o e rr cs fun c hc => Call.inductionOn P h c
termination_by c => sizeOf c
decreasing_by
  have h1 := List.sizeOf_lt_of_mem hc
  simp only [Call.mk.sizeOf_spec]
  omega

/-- Inversion for `CallEqSpec` at two constructor applications. -/
theorem CallEqSpec.inv {t t' : CallType} {f f' ta ta' : Address}
    {pg pg' g g' gu gu' v v' : Nat} {i i' o o' : List Nat}
    {e e' rr rr' : Option String} {cs cs' : List Call}
    (h : CallEqSpec (.mk t f ta pg g gu v i o e rr cs)
      (.mk t' f' ta' pg' g' gu' v' i' o' e' rr' cs')) :
    rr = rr' ∧ i = i' ∧ f = f' ∧ ta = ta' ∧ t = t' ∧ v = v' ∧ e = e' ∧ o = o' ∧
    cs.length = cs'.length ∧ ∀ p ∈ cs.zip cs', CallEqSpec p.1 p.2 :=
  match h with
  | .intro _ _ _ _ _ _ _ _ _ _ _ _ _ _ _ _ _ _ _ _ _ _ _ _
      hrr hi hf hta ht hv he ho hlen hall =>
    ⟨hrr, hi, hf, hta, ht, hv, he, ho, hlen, hall⟩

/-- `callListEq` holds iff the lists have equal length and related members,
assuming the member-wise characterisation of `callEq` on the left list. -/
theorem callListEq_iff : ∀ cs cs' : List Call,
    (∀ c ∈ cs, ∀ b, callEq c b = true ↔ CallEqSpec c b) →
    (callListEq cs cs' = true ↔
      (cs.length = cs'.length ∧ ∀ p ∈ cs.zip cs', CallEqSpec p.1 p.2)) := by
  intro cs
  induction cs with
  | nil => intro cs' _; cases cs' <;> simp [callListEq]
  | cons a as2 ih =>
    intro cs' IH
    cases cs' with
    | nil => simp [callListEq]
    | cons b bs =>
      simp only [callListEq, Bool.and_eq_true, List.length_cons,
        List.zip_cons_cons]
      rw [ih bs (fun c hc b2 => IH c (List.mem_cons_of_mem a hc) b2),
        IH a (List.mem_cons_self a as2) b]
      constructor
      · rintro ⟨hab, hlen, hall⟩
        refine ⟨by omega, fun p hp => ?_⟩
        rcases List.mem_cons.mp hp with rfl | hp2
        · exact hab
        · exact hall p hp2
      · rintro ⟨hlen, hall⟩
        exact ⟨hall (a, b) (List.mem_cons_self _ _), by omega,
          fun p hp => hall p (List.mem_cons_of_mem _ hp)⟩

/-- The source equality `callEq` coincides with the spec-side relation
`CallEqSpec`. -/
theorem callEq_iff_spec (a b : Call) : callEq a b = true ↔ CallEqSpec a b := by
  refine Call.inductionOn (fun a => ∀ b, callEq a b = true ↔ CallEqSpec a b)
    ?_ a b
  intro t f ta pg g gu v i o e rr cs IH b2
  cases b2 with
  | mk t' f' ta' pg' g' gu' v' i' o' e' rr' cs' =>
    simp only [callEq, Bool.and_eq_true, decide_eq_true_eq]
    rw [callListEq_iff cs cs' IH]
    constructor
    · rintro ⟨⟨⟨⟨⟨⟨⟨⟨hrr, hi⟩, hf⟩, hta⟩, ht⟩, hv⟩, he⟩, ho⟩, hlen, hall⟩
      exact CallEqSpec.intro t t' f f' ta ta' pg pg' g g' gu gu' v v' i i' o o'
        e e' rr rr' cs cs' hrr hi hf hta ht hv he ho hlen hall
    · intro hs
      obtain ⟨hrr, hi, hf, hta, ht, hv, he, ho, hlen, hall⟩ := hs.inv
      exact ⟨⟨⟨⟨⟨⟨⟨⟨hrr, hi⟩, hf⟩, hta⟩, ht⟩, hv⟩, he⟩, ho⟩, hlen, hall⟩

/-- `callListEq` is reflexive on lists of members on which `callEq` is. -/
theorem callListEq_refl_of (cs : List Call)
    (h : ∀ c ∈ cs, callEq c c = true) : callListEq cs cs = true := by
  induction cs with
  | nil => rfl
  | cons a as2 ih =>
    simp only [callListEq, Bool.and_eq_true]
    exact ⟨h a (List.mem_cons_self a as2),
      ih fun c hc => h c (List.mem_cons_of_mem a hc)⟩

/-- `callEq` is reflexive. -/
theorem callEq_refl (c : Call) : callEq c c = true := by
  refine Call.inductionOn (fun c => callEq c c = true) ?_ c
  intro t f ta pg g gu v i o e rr cs IH
  simp only [callEq, Bool.and_eq_true, decide_eq_true_eq, and_true, true_and,
    eq_self_iff_true]
  exact callListEq_refl_of cs IH

/-- Claim C6: `Call` equality is partial by design: two trees compare equal iff
`revert_reason`, `input`, `from`, `to`, `type`, `value`, `error`, `output` and
(element-wise, recursively) `calls` match; `parent_gas`, `gas` and `gas_used`
are ignored, so nodes differing only there are equal, while nodes differing in
`output` are not. -/
theorem call_partial_equality :
    (∀ a b, callEq a b = true ↔ CallEqSpec a b) ∧
    (∀ t f ta pg g gu pg' g' gu' v i o e rr cs,
      callEq (Call.mk t f ta pg g gu v i o e rr cs)
        (Call.mk t f ta pg' g' gu' v i o e rr cs) = true) ∧
    (∀ a b, a.output ≠ b.output → callEq a b = false) := by
  refine ⟨fun a b => callEq_iff_spec a b, ?_, ?_⟩
  · intro t f ta pg g gu pg' g' gu' v i o e rr cs
    simp only [callEq, Bool.and_eq_true, decide_eq_true_eq, and_true, true_and,
      eq_self_iff_true]
    exact callListEq_refl_of cs fun c _ => callEq_refl c
  · intro a b h
    cases a with
    | mk t f ta pg g gu v i o e rr cs =>
      cases b with
      | mk t' f' ta' pg' g' gu' v' i' o' e' rr' cs' =>
        have ho : o ≠ o' := by simpa [Call.output] using h
        simp only [callEq, decide_eq_false ho, Bool.and_false, Bool.false_and]

/-- Witness for C6 at concrete inputs: two nodes differing only in the three gas
fields compare equal; two nodes differing in `output` do not. -/
theorem call_partial_equality_witness :
    callEq (Call.mk .Create 0 0 1 2 3 0 [] [] none none [])
      (Call.mk .Create 0 0 7 8 9 0 [] [] none none []) = true ∧
    callEq (Call.mk .Create 0 0 0 0 0 0 [] [1] none none []) call_leaf = false :=
  ⟨call_partial_equality.2.1 .Create 0 0 1 2 3 7 8 9 0 [] [] none none [],
   call_partial_equality.2.2 _ call_leaf (by decide)⟩
